import Mathlib

/-!
Shallow embedding of the Fleepzonsoftech web-to-app backend (`server.js`,
plus the variant source file `part_000` where it differs).

External collaborators (Express routing, MongoDB driver, multer, the
Razorpay gateway, node `crypto`, nodemailer) are modelled as black boxes:
the document collection is a `List AppRecord` in insertion order
(`findOne` is first match, `save`/`findOneAndUpdate` replace the first
match, `new Model(...).save()` appends), `crypto.createHmac("sha256",..)`
is an abstract function carried in the environment, `Date.now()` is a
`Nat` clock in the environment, and success or failure of the mail
transport and of the gateway are environment booleans.  File writes and
delivered emails are recorded as an effect trace.
-/

namespace Fleepzon

/-- Split a character list into its `/`-separated segments. -/
def splitSlash (cur : List Char) : List Char → List (List Char)
  | [] => [cur.reverse]
  | c :: cs => if c = '/' then cur.reverse :: splitSlash [] cs else splitSlash (c :: cur) cs

/-- Model of Node `path.join` segment normalization: empty and `.`
segments are dropped and `..` pops the previous segment when one exists. -/
def normStep (stack : List (List Char)) (seg : List Char) : List (List Char) :=
  if seg = [] ∨ seg = ['.'] then stack
  else if seg = ['.', '.'] then
    match stack with
    | [] => [seg]
    | top :: rest => if top = ['.', '.'] then seg :: top :: rest else rest
  else seg :: stack

/-- Rebuild a path from its segments. -/
def joinSegs : List (List Char) → List Char
  | [] => []
  | [s] => s
  | s :: rest => s ++ '/' :: joinSegs rest

/-- Model of Node `path.join a b` for relative POSIX paths:
concatenate with a separator, then normalize the segments. -/
def pathJoin (a b : String) : String :=
  String.mk (joinSegs (((splitSlash [] (a.data ++ '/' :: b.data)).foldl normStep []).reverse))

/-- Whether the path `s` lies under the directory `p` (is `p ++ "/"` a
prefix of `s` character-wise). -/
def underDir (p s : String) : Bool :=
  List.isPrefixOf (p.data ++ ['/']) s.data

/-- ASCII uppercase of one character. -/
def upChar (c : Char) : Char :=
  if 'a' ≤ c ∧ c ≤ 'z' then Char.ofNat (c.toNat - 32) else c

/-- ASCII uppercase of a string, modelling `type.toUpperCase()`. -/
def asciiUpper (s : String) : String :=
  String.mk (s.data.map upChar)

/-- ASCII lowercase of one character. -/
def lowChar (c : Char) : Char :=
  if 'A' ≤ c ∧ c ≤ 'Z' then Char.ofNat (c.toNat + 32) else c

/-- ASCII lowercase of a string (for the case-insensitive search match). -/
def asciiLower (s : String) : String :=
  String.mk (s.data.map lowChar)

/-- One document of the Mongo `App` collection (the mongoose `appSchema`).
`buildAAB = ""` models an unset field (JS `undefined` is falsy exactly like
`""` in every check the code performs); `updatedAt = none` models a field
never assigned.  `versionCode` is declared `Number` in the schema but
arrives as a form-field string; the mongoose cast is not modelled and the
raw value is carried. -/
structure AppRecord where
  appName : String
  packageName : String
  website : String
  icon : String
  splash : String
  buildFile : String
  buildAAB : String
  contactEmail : String
  versionName : String
  versionCode : String
  addons : List String
  admobAppId : String
  bannerAd : String
  rewardedAd : String
  paid : Bool
  createdAt : Nat
  updatedAt : Option Nat
deriving Repr, DecidableEq

/-- The `req.body` fields read by the `/api/submit` handler.  A missing
text field is modelled as `""` (JS `undefined` and `""` are both falsy in
each test the handler makes); `addons` is `none` when absent because an
empty array is truthy in JS, so absence and `[]` behave differently. -/
structure SubmitData where
  appName : String
  packageName : String
  website : String
  contactEmail : String
  versionName : String
  versionCode : String
  addons : Option (List String)
  admobAppId : String
  bannerAd : String
  rewardedAd : String
deriving Repr, DecidableEq

/-- The `req.body` of `/api/payment/verify`. -/
structure VerifyData where
  packageName : String
  razorpay_order_id : String
  razorpay_payment_id : String
  razorpay_signature : String
deriving Repr, DecidableEq

/-- The order request sent to `razorpay.orders.create` (the gateway echoes
it back with an id; the echo is the black-box gateway's business). -/
structure Order where
  amount : Nat
  currency : String
  receipt : String
deriving Repr, DecidableEq

/-- JSON response bodies produced by the handlers. -/
inductive RespBody where
  | plain (text : String)
  | checkAppFound (versionName versionCode : String)
  | checkAppMissing
  | submitOk (message downloadUrl : String)
  | searchMiss (message : String)
  | searchHit (data : AppRecord) (apkLink : String) (aabLink : Option String)
  | orderOk (order : Order)
  | verifyOk (message downloadAAB : String)
  | errBody (error : String)
deriving Repr, DecidableEq

/-- An HTTP response: status code plus JSON body. -/
structure Resp where
  status : Nat
  body : RespBody
deriving Repr, DecidableEq

/-- Observable side effects: a file written to disk, an email delivered. -/
inductive Effect where
  | fileWrite (path : String) (content : String)
  | emailSent (toAddr : String) (subject : String)
deriving Repr, DecidableEq

/-- Per-request environment: clock, configuration, and the black-box
collaborators (HMAC primitive, mail transport, payment gateway). -/
structure Env where
  now : Nat
  secret : String
  port : String
  protocol : String
  host : String
  cwd : String
  hmacSha256Hex : String → String → String
  emailOk : Bool
  gatewayOk : Bool

/-- What a handler run produces: the response, the collection afterwards,
and the trace of effects in order. -/
structure HandlerResult where
  resp : Resp
  db : List AppRecord
  effects : List Effect
deriving Repr

/-- `AppModel.findOne({ packageName })`: first record with that key. -/
def findByPackage (db : List AppRecord) (pkg : String) : Option AppRecord :=
  db.find? (fun r => r.packageName == pkg)

/-- Saving a fetched document (`existing.save()` /
`findOneAndUpdate({packageName}, ...)`): replace the first record with the
given key. -/
def replaceFirst (db : List AppRecord) (pkg : String) (x : AppRecord) : List AppRecord :=
  match db with
  | [] => []
  | y :: ys => if y.packageName == pkg then x :: ys else y :: replaceFirst ys pkg x

/-- Number of records stored under a package name. -/
def countPkg (db : List AppRecord) (pkg : String) : Nat :=
  (db.filter (fun r => r.packageName == pkg)).length

/-- `server.js` `buildFakeFile` folder: the literal `"uploads/builds"`. -/
def buildsFolder : String := "uploads/builds"

/-- The path `buildFakeFile` writes: `path.join(folder, packageName + "." + type)`
with the raw, unvalidated package name. -/
def buildFakeFilePath (packageName type : String) : String :=
  pathJoin buildsFolder (packageName ++ "." ++ type)

/-- The marker content `buildFakeFile` writes (`new Date()` is rendered as
the clock value). -/
def buildFakeFileContent (env : Env) (packageName type : String) : String :=
  asciiUpper type ++ " build for " ++ packageName ++ " at " ++ Nat.repr env.now

/-- The record built by the create branch of `/api/submit`
(`new AppModel({...})`): `paid` defaults to `false`, `createdAt` defaults
to now, `buildAAB` and `updatedAt` are unset. -/
def newAppRecord (env : Env) (data : SubmitData) (icon splash : String) : AppRecord :=
  { appName := data.appName
    packageName := data.packageName
    website := data.website
    icon := icon
    splash := splash
    buildFile := buildFakeFilePath data.packageName "apk"
    buildAAB := ""
    contactEmail := data.contactEmail
    versionName := data.versionName
    versionCode := data.versionCode
    addons := data.addons.getD []
    admobAppId := data.admobAppId
    bannerAd := data.bannerAd
    rewardedAd := data.rewardedAd
    paid := false
    createdAt := env.now
    updatedAt := none }

/-- The in-place mutation of the update branch of `/api/submit`:
unconditional assignments for the plain metadata fields, `|| existing.*`
fallbacks only for `icon`, `splash` and `addons`; `contactEmail`, `paid`,
`buildAAB` and `createdAt` are never assigned. -/
def updatedAppRecord (env : Env) (existing : AppRecord) (data : SubmitData)
    (icon splash : String) : AppRecord :=
  { existing with
    appName := data.appName
    versionName := data.versionName
    versionCode := data.versionCode
    website := data.website
    icon := if icon = "" then existing.icon else icon
    splash := if splash = "" then existing.splash else splash
    addons := data.addons.getD existing.addons
    admobAppId := data.admobAppId
    bannerAd := data.bannerAd
    rewardedAd := data.rewardedAd
    buildFile := buildFakeFilePath data.packageName "apk"
    updatedAt := some env.now }

/-- The `POST /api/submit` handler of `server.js`.  It looks up the
package, writes the stub APK, updates or creates the record, then awaits
`sendEmail`; `sendEmail` has no internal catch, so a mail failure is
thrown into the handler's catch and yields the 500 response — after the
file and record writes already happened. -/
def submitHandler (env : Env) (db : List AppRecord) (data : SubmitData)
    (iconUpload splashUpload : Option String) : HandlerResult :=
  let icon := iconUpload.getD ""
  let splash := splashUpload.getD ""
  let buildPath := buildFakeFilePath data.packageName "apk"
  let buildWrite := Effect.fileWrite buildPath (buildFakeFileContent env data.packageName "apk")
  let link := "http://localhost:" ++ env.port ++ "/" ++ buildPath
  match findByPackage db data.packageName with
  | some existing =>
    let upd := updatedAppRecord env existing data icon splash
    { resp :=
        if env.emailOk then
          { status := 200,
            body := RespBody.submitOk
              ("✅ Updated " ++ upd.appName ++ " to v" ++ upd.versionName) link }
        else { status := 500, body := RespBody.errBody "Failed to save app" }
      db := replaceFirst db data.packageName upd
      effects := buildWrite ::
        (if env.emailOk then
          [Effect.emailSent upd.contactEmail
            ("✅ " ++ upd.appName ++ " Updated (v" ++ upd.versionName ++ ")")]
         else []) }
  | none =>
    let newApp := newAppRecord env data icon splash
    { resp :=
        if env.emailOk then
          { status := 200,
            body := RespBody.submitOk ("🎉 " ++ newApp.appName ++ " created successfully!") link }
        else { status := 500, body := RespBody.errBody "Failed to save app" }
      db := db ++ [newApp]
      effects := buildWrite ::
        (if env.emailOk then
          [Effect.emailSent newApp.contactEmail ("🎉 " ++ newApp.appName ++ " Build Ready")]
         else []) }

/-- `GET /` health check. -/
def healthHandler (_env : Env) (db : List AppRecord) : HandlerResult :=
  { resp := { status := 200, body := RespBody.plain "✅ Web-to-App Builder Backend Running!" }
    db := db
    effects := [] }

/-- `GET /api/checkApp?packageName=`. -/
def checkAppHandler (_env : Env) (db : List AppRecord) (packageName : String) : HandlerResult :=
  match findByPackage db packageName with
  | some a =>
    { resp := { status := 200, body := RespBody.checkAppFound a.versionName a.versionCode }
      db := db, effects := [] }
  | none =>
    { resp := { status := 200, body := RespBody.checkAppMissing }, db := db, effects := [] }

/-- Whether `needle` occurs as a contiguous subsequence of the list. -/
def containsSeq (needle : List Char) : List Char → Bool
  | [] => needle.isEmpty
  | c :: rest => List.isPrefixOf needle (c :: rest) || containsSeq needle rest

/-- Case-insensitive substring test modelling the
regex match with the ignore-case option (the query is treated as a plain
substring pattern). -/
def matchCI (hay query : String) : Bool :=
  containsSeq (asciiLower query).data (asciiLower hay).data

/-- `GET /api/search?q=`. -/
def searchHandler (env : Env) (db : List AppRecord) (q : String) : HandlerResult :=
  let query := q.trim
  if query = "" then
    { resp := { status := 400, body := RespBody.errBody "Missing search query" }
      db := db, effects := [] }
  else
    match db.find? (fun r => matchCI r.appName query || matchCI r.packageName query) with
    | none =>
      { resp := { status := 200, body := RespBody.searchMiss "App not found" }
        db := db, effects := [] }
    | some a =>
      let apkLink := "http://localhost:" ++ env.port ++ "/" ++ a.buildFile
      let aabLink := if a.buildAAB = "" then none
        else some ("http://localhost:" ++ env.port ++ "/" ++ a.buildAAB)
      { resp := { status := 200, body := RespBody.searchHit a apkLink aabLink }
        db := db, effects := [] }

/-- The order request `POST /api/payment/order` hands to
`razorpay.orders.create`: fixed amount 699900, currency INR, receipt
derived from the clock. -/
def createOrderReq (env : Env) : Order :=
  { amount := 699900, currency := "INR", receipt := "order_" ++ Nat.repr env.now }

/-- `POST /api/payment/order`: delegate to the gateway; on gateway failure
respond 500 and touch nothing. -/
def orderHandler (env : Env) (db : List AppRecord) : HandlerResult :=
  if env.gatewayOk then
    { resp := { status := 200, body := RespBody.orderOk (createOrderReq env) }
      db := db, effects := [] }
  else
    { resp := { status := 500, body := RespBody.errBody "Payment order failed" }
      db := db, effects := [] }

/-- The 400 response of the signature check in `/api/payment/verify`. -/
def mismatchResp : Resp :=
  { status := 400, body := RespBody.errBody "Signature mismatch ❌" }

/-- The `POST /api/payment/verify` handler of `server.js`.  The HMAC over
`orderId + "|" + paymentId` is recomputed and compared first; on mismatch
the 400 is returned before anything else runs.  On match the stub AAB is
written, then `findOneAndUpdate` sets `paid` and `buildAAB` (and nothing
else — no `updatedAt`).  When no record matches, `findOneAndUpdate`
returns null and reading `updated.contactEmail` throws into the catch,
giving the generic 500; a mail failure lands in the same catch. -/
def verifyHandler (env : Env) (db : List AppRecord) (d : VerifyData) : HandlerResult :=
  let generated := env.hmacSha256Hex env.secret (d.razorpay_order_id ++ "|" ++ d.razorpay_payment_id)
  if generated ≠ d.razorpay_signature then
    { resp := mismatchResp, db := db, effects := [] }
  else
    let aabPath := buildFakeFilePath d.packageName "aab"
    let buildWrite := Effect.fileWrite aabPath (buildFakeFileContent env d.packageName "aab")
    match findByPackage db d.packageName with
    | none =>
      { resp := { status := 500, body := RespBody.errBody "Verification failed" }
        db := db, effects := [buildWrite] }
    | some existing =>
      let upd := { existing with paid := true, buildAAB := aabPath }
      { resp :=
          if env.emailOk then
            { status := 200,
              body := RespBody.verifyOk "✅ Payment verified & AAB generated!"
                ("http://localhost:" ++ env.port ++ "/" ++ aabPath) }
          else { status := 500, body := RespBody.errBody "Verification failed" }
        db := replaceFirst db d.packageName upd
        effects := buildWrite ::
          (if env.emailOk then
            [Effect.emailSent upd.contactEmail ("✅ " ++ upd.appName ++ " AAB Build Ready")]
           else []) }

/-- Replace each backslash by a slash, modelling
`buildPath.replace(/\\/g, "/")` from the `part_000` variant. -/
def slashify (s : String) : String :=
  s.map (fun c => if c = '\\' then '/' else c)

/-- The `part_000` variant's builds folder:
`path.join(process.cwd(), "uploads", "builds")`. -/
def buildsFolder0 (env : Env) : String :=
  pathJoin (pathJoin env.cwd "uploads") "builds"

/-- The `part_000` variant's `POST /api/submit`: no lookup, always create;
its `sendEmail` has an internal try/catch, so a mail failure is only
logged and the request still succeeds. -/
def submitHandler0 (env : Env) (db : List AppRecord) (data : SubmitData)
    (iconUpload splashUpload : Option String) : HandlerResult :=
  let icon := iconUpload.getD ""
  let splash := splashUpload.getD ""
  let buildPath := pathJoin (buildsFolder0 env) (data.packageName ++ "." ++ "apk")
  let publicLink := env.protocol ++ "://" ++ env.host ++ "/" ++ slashify buildPath
  let newApp := { newAppRecord env data icon splash with buildFile := buildPath }
  { resp := { status := 200,
              body := RespBody.submitOk
                ("🎉 " ++ newApp.appName ++ " created successfully!") publicLink }
    db := db ++ [newApp]
    effects := Effect.fileWrite buildPath (buildFakeFileContent env data.packageName "apk") ::
      (if env.emailOk then
        [Effect.emailSent newApp.contactEmail ("🎉 " ++ newApp.appName ++ " Build Ready")]
       else []) }

/-- One incoming request, covering every route the server mounts. -/
inductive Request where
  | health
  | checkApp (packageName : String)
  | submit (data : SubmitData) (iconUpload splashUpload : Option String)
  | search (q : String)
  | order
  | verify (d : VerifyData)

/-- The collection after one request is handled. -/
def step (env : Env) (db : List AppRecord) : Request → List AppRecord
  | Request.health => (healthHandler env db).db
  | Request.checkApp pkg => (checkAppHandler env db pkg).db
  | Request.submit data i s => (submitHandler env db data i s).db
  | Request.search q => (searchHandler env db q).db
  | Request.order => (orderHandler env db).db
  | Request.verify d => (verifyHandler env db d).db

/-! Concrete fixtures used by witnesses and counterexamples. -/

/-- A concrete environment: the HMAC black box is instantiated by a test
double (any concrete keyed function works for exercising the comparison). -/
def envA : Env :=
  { now := 7
    secret := "sec"
    port := "5000"
    protocol := "http"
    host := "localhost:5000"
    cwd := "/srv/app"
    hmacSha256Hex := fun key msg => key ++ ":" ++ msg
    emailOk := true
    gatewayOk := true }

/-- A fully populated submission. -/
def dataAcme : SubmitData :=
  { appName := "Acme"
    packageName := "com.acme.app"
    website := "https://acme.example"
    contactEmail := "a@x.com"
    versionName := "1.0"
    versionCode := "1"
    addons := some ["chat"]
    admobAppId := "ca-app-pub-1"
    bannerAd := "banner-1"
    rewardedAd := "rewarded-1"}

/-- A second submission for the same package with every text field empty
or omitted except `contactEmail`. -/
def dataEmptySecond : SubmitData :=
  { appName := ""
    packageName := "com.acme.app"
    website := ""
    contactEmail := "other@x.com"
    versionName := ""
    versionCode := ""
    addons := none
    admobAppId := ""
    bannerAd := ""
    rewardedAd := "" }

/-- A submission with the required `packageName` and `contactEmail` empty. -/
def dataNoRequired : SubmitData :=
  { appName := ""
    packageName := ""
    website := ""
    contactEmail := ""
    versionName := ""
    versionCode := ""
    addons := none
    admobAppId := ""
    bannerAd := ""
    rewardedAd := "" }

/-- A verify request whose signature equals what `envA`'s HMAC double
computes over `"o1" ++ "|" ++ "p1"` with key `"sec"`. -/
def vdGood : VerifyData :=
  { packageName := "com.acme.app"
    razorpay_order_id := "o1"
    razorpay_payment_id := "p1"
    razorpay_signature := "sec:o1|p1" }

/-- The same verify request with a tampered signature. -/
def vdBad : VerifyData :=
  { packageName := "com.acme.app"
    razorpay_order_id := "o1"
    razorpay_payment_id := "p1"
    razorpay_signature := "tampered" }

/-- An already-stored record with an `updatedAt` value from an earlier
submission update. -/
def recStored : AppRecord :=
  { appName := "Acme"
    packageName := "com.acme.app"
    website := "https://acme.example"
    icon := ""
    splash := ""
    buildFile := "uploads/builds/com.acme.app.apk"
    buildAAB := ""
    contactEmail := "a@x.com"
    versionName := "1.0"
    versionCode := "1"
    addons := ["chat"]
    admobAppId := "ca-app-pub-1"
    bannerAd := "banner-1"
    rewardedAd := "rewarded-1"
    paid := false
    createdAt := 1
    updatedAt := some 5 }

/-- A stored record that has already been paid for. -/
def recPaid : AppRecord :=
  { recStored with paid := true, buildAAB := "uploads/builds/com.acme.app.aab" }

/-- Numeric value of a decimal digit character. -/
def digitVal (c : Char) : Nat := c.toNat - 48

/-- Decode a decimal digit string back to the number it denotes. -/
def decodeDigits (l : List Char) : Nat :=
  l.foldl (fun a c => a * 10 + digitVal c) 0

/-! Helper lemmas about the record store. -/

theorem get?_append_left {α : Type} (l1 l2 : List α) (i : Nat) (a : α)
    (h : l1.get? i = some a) : (l1 ++ l2).get? i = some a := by
  induction l1 generalizing i with
  | nil => simp at h
  | cons x xs ih =>
    cases i with
    | zero => simpa using h
    | succ j => simpa using ih j (by simpa using h)

theorem findByPackage_cons (y : AppRecord) (ys : List AppRecord) (pkg : String) :
    findByPackage (y :: ys) pkg =
      if y.packageName == pkg then some y else findByPackage ys pkg := by
  unfold findByPackage
  cases hy : y.packageName == pkg <;> simp [List.find?_cons, hy]

theorem findByPackage_some_pkg {db : List AppRecord} {pkg : String} {r : AppRecord}
    (h : findByPackage db pkg = some r) : r.packageName = pkg := by
  have := List.find?_some h
  simpa using this

theorem findByPackage_append {db l : List AppRecord} {pkg : String}
    (h : findByPackage db pkg = none) :
    findByPackage (db ++ l) pkg = findByPackage l pkg := by
  induction db with
  | nil => rfl
  | cons y ys ih =>
    rw [findByPackage_cons] at h
    by_cases hy : y.packageName == pkg
    · simp [hy] at h
    · rw [List.cons_append, findByPackage_cons, if_neg hy]
      exact ih (by rwa [if_neg hy] at h)

theorem findByPackage_eq_none_of_count0 {db : List AppRecord} {pkg : String}
    (h : countPkg db pkg = 0) : findByPackage db pkg = none := by
  unfold countPkg at h
  rw [List.length_eq_zero, List.filter_eq_nil_iff] at h
  unfold findByPackage
  rw [List.find?_eq_none]
  exact h

theorem replaceFirst_append_of_none {db : List AppRecord} {pkg : String}
    (l : List AppRecord) (x : AppRecord) (h : findByPackage db pkg = none) :
    replaceFirst (db ++ l) pkg x = db ++ replaceFirst l pkg x := by
  induction db with
  | nil => rfl
  | cons y ys ih =>
    rw [findByPackage_cons] at h
    by_cases hy : y.packageName == pkg
    · simp [hy] at h
    · rw [List.cons_append, replaceFirst, if_neg hy, List.cons_append,
        ih (by rwa [if_neg hy] at h)]

theorem replaceFirst_get?_spec (db : List AppRecord) (pkg : String) (x : AppRecord)
    (i : Nat) (r r' : AppRecord) (h : db.get? i = some r)
    (h' : (replaceFirst db pkg x).get? i = some r') :
    r' = r ∨ (r' = x ∧ findByPackage db pkg = some r) := by
  induction db generalizing i with
  | nil => simp at h
  | cons y ys ih =>
    rw [replaceFirst] at h'
    by_cases hy : y.packageName == pkg
    · rw [if_pos hy] at h'
      cases i with
      | zero =>
        simp only [List.get?] at h h'
        right
        refine ⟨(Option.some.injEq _ _).mp h'.symm ▸ rfl, ?_⟩
        rw [findByPackage_cons, if_pos hy]
        exact congrArg some ((Option.some.injEq _ _).mp h).symm ▸ rfl
      | succ j =>
        simp only [List.get?] at h h'
        left
        rw [h] at h'
        exact ((Option.some.injEq _ _).mp h').symm
    · rw [if_neg hy] at h'
      cases i with
      | zero =>
        simp only [List.get?] at h h'
        left
        rw [h] at h'
        exact ((Option.some.injEq _ _).mp h').symm
      | succ j =>
        simp only [List.get?] at h h'
        rcases ih j h h' with hl | ⟨hx, hf⟩
        · exact Or.inl hl
        · right
          exact ⟨hx, by rw [findByPackage_cons, if_neg hy]; exact hf⟩

theorem mem_replaceFirst_self {db : List AppRecord} {pkg : String} {ex : AppRecord}
    (x : AppRecord) (h : findByPackage db pkg = some ex) :
    x ∈ replaceFirst db pkg x := by
  induction db with
  | nil => simp [findByPackage] at h
  | cons y ys ih =>
    rw [findByPackage_cons] at h
    by_cases hy : y.packageName == pkg
    · rw [replaceFirst, if_pos hy]; exact List.mem_cons_self _ _
    · rw [replaceFirst, if_neg hy]
      exact List.mem_cons_of_mem _ (ih (by rwa [if_neg hy] at h))

theorem findByPackage_replaceFirst_self {db : List AppRecord} {pkg : String} {ex : AppRecord}
    (x : AppRecord) (hx : x.packageName = pkg) (h : findByPackage db pkg = some ex) :
    findByPackage (replaceFirst db pkg x) pkg = some x := by
  induction db with
  | nil => simp [findByPackage] at h
  | cons y ys ih =>
    rw [findByPackage_cons] at h
    by_cases hy : y.packageName == pkg
    · rw [replaceFirst, if_pos hy, findByPackage_cons, if_pos (by simp [hx])]
    · rw [replaceFirst, if_neg hy, findByPackage_cons, if_neg hy]
      exact ih (by rwa [if_neg hy] at h)

/-- Projection of the submit handler's stored collection. -/
theorem submitHandler_db (env : Env) (db : List AppRecord) (data : SubmitData)
    (iconU splashU : Option String) :
    (submitHandler env db data iconU splashU).db =
      match findByPackage db data.packageName with
      | some ex =>
        replaceFirst db data.packageName
          (updatedAppRecord env ex data (iconU.getD "") (splashU.getD ""))
      | none => db ++ [newAppRecord env data (iconU.getD "") (splashU.getD "")] := by
  unfold submitHandler
  cases findByPackage db data.packageName <;> rfl

/-- The search handler never writes. -/
theorem searchHandler_db (env : Env) (db : List AppRecord) (q : String) :
    (searchHandler env db q).db = db := by
  unfold searchHandler
  by_cases h : q.trim = ""
  · simp [h]
  · simp only [if_neg h]
    cases db.find? (fun r => matchCI r.appName (q.trim) || matchCI r.packageName (q.trim)) <;> rfl

theorem checkAppHandler_db (env : Env) (db : List AppRecord) (pkg : String) :
    (checkAppHandler env db pkg).db = db := by
  unfold checkAppHandler
  cases findByPackage db pkg <;> rfl

theorem orderHandler_db (env : Env) (db : List AppRecord) :
    (orderHandler env db).db = db := by
  unfold orderHandler
  cases h : env.gatewayOk <;> simp [h]

/-- What the verify handler can do to the collection: leave it alone, or
replace the first record for the package by the same record with `paid`
set and `buildAAB` pointing at the stub. -/
theorem verifyHandler_db_cases (env : Env) (db : List AppRecord) (d : VerifyData) :
    (verifyHandler env db d).db = db ∨
    ∃ ex, findByPackage db d.packageName = some ex ∧
      (verifyHandler env db d).db =
        replaceFirst db d.packageName
          { ex with paid := true, buildAAB := buildFakeFilePath d.packageName "aab" } := by
  unfold verifyHandler
  by_cases h : env.hmacSha256Hex env.secret (d.razorpay_order_id ++ "|" ++ d.razorpay_payment_id)
      = d.razorpay_signature
  · simp only [h, ne_eq, not_true_eq_false, if_false]
    cases hf : findByPackage db d.packageName with
    | none => exact Or.inl rfl
    | some ex => exact Or.inr ⟨ex, rfl, rfl⟩
  · left
    simp only [ne_eq, h, not_false_eq_true, if_true]

/-- Positional effect of a submit on records already stored: `paid`,
`buildAAB`, `createdAt` and `contactEmail` of every pre-existing record
are unchanged. -/
theorem submitHandler_get?_preserves (env : Env) (db : List AppRecord) (data : SubmitData)
    (iconU splashU : Option String) (i : Nat) (r r' : AppRecord)
    (h : db.get? i = some r)
    (h' : (submitHandler env db data iconU splashU).db.get? i = some r') :
    r'.paid = r.paid ∧ r'.buildAAB = r.buildAAB ∧ r'.createdAt = r.createdAt ∧
    r'.contactEmail = r.contactEmail := by
  rw [submitHandler_db] at h'
  cases hf : findByPackage db data.packageName with
  | none =>
    simp only [hf] at h'
    have hr := get?_append_left db [newAppRecord env data (iconU.getD "") (splashU.getD "")] i r h
    rw [hr] at h'
    have : r' = r := (Option.some.injEq _ _).mp h'.symm
    subst this
    exact ⟨rfl, rfl, rfl, rfl⟩
  | some ex =>
    simp only [hf] at h'
    rcases replaceFirst_get?_spec db data.packageName
        (updatedAppRecord env ex data (iconU.getD "") (splashU.getD "")) i r r' h h' with
      h1 | ⟨h1, hmat⟩
    · subst h1; exact ⟨rfl, rfl, rfl, rfl⟩
    · have hex : ex = r := by
        rw [hf] at hmat
        exact (Option.some.injEq _ _).mp hmat
      subst hex
      subst h1
      exact ⟨rfl, rfl, rfl, rfl⟩

/-- Positional effect of a verify on stored records: either untouched, or
only `paid` is raised to `true` and `buildAAB` overwritten — `createdAt`
and `updatedAt` are unchanged either way. -/
theorem verifyHandler_get?_preserves (env : Env) (db : List AppRecord) (d : VerifyData)
    (i : Nat) (r r' : AppRecord)
    (h : db.get? i = some r)
    (h' : (verifyHandler env db d).db.get? i = some r') :
    (r'.paid = r.paid ∨ r'.paid = true) ∧ r'.createdAt = r.createdAt ∧
    r'.updatedAt = r.updatedAt := by
  rcases verifyHandler_db_cases env db d with hdb | ⟨ex, hf, hdb⟩
  · rw [hdb, h] at h'
    have : r' = r := (Option.some.injEq _ _).mp h'.symm
    subst this
    exact ⟨Or.inl rfl, rfl, rfl⟩
  · rw [hdb] at h'
    rcases replaceFirst_get?_spec db d.packageName
        { ex with paid := true, buildAAB := buildFakeFilePath d.packageName "aab" } i r r' h h' with
      h1 | ⟨h1, hmat⟩
    · subst h1; exact ⟨Or.inl rfl, rfl, rfl⟩
    · have hex : ex = r := by
        rw [hf] at hmat
        exact (Option.some.injEq _ _).mp hmat
      subst hex
      subst h1
      exact ⟨Or.inr rfl, rfl, rfl⟩

/-! Injectivity of the decimal rendering used for the order receipt. -/

theorem toDigitsCore_append (b : Nat) :
    ∀ (fuel n : Nat) (ds : List Char),
      Nat.toDigitsCore b fuel n ds = Nat.toDigitsCore b fuel n [] ++ ds := by
  intro fuel
  induction fuel with
  | zero => intro n ds; rfl
  | succ f ih =>
    intro n ds
    simp only [Nat.toDigitsCore]
    by_cases h : n / b = 0
    · simp [h]
    · rw [if_neg h, if_neg h, ih (n / b) (Nat.digitChar (n % b) :: ds),
        ih (n / b) [Nat.digitChar (n % b)], List.append_assoc]
      rfl

theorem decodeDigits_append_singleton (l : List Char) (c : Char) :
    decodeDigits (l ++ [c]) = decodeDigits l * 10 + digitVal c := by
  simp [decodeDigits, List.foldl_append]

theorem digitVal_digitChar (d : Nat) (h : d < 10) :
    digitVal (Nat.digitChar d) = d := by
  interval_cases d <;> rfl

theorem decodeDigits_toDigitsCore :
    ∀ (fuel n : Nat), n < fuel → decodeDigits (Nat.toDigitsCore 10 fuel n []) = n := by
  intro fuel
  induction fuel with
  | zero => intro n h; omega
  | succ f ih =>
    intro n h
    simp only [Nat.toDigitsCore]
    by_cases h0 : n / 10 = 0
    · rw [if_pos h0]
      have hn : n < 10 := by omega
      rw [show decodeDigits [Nat.digitChar (n % 10)]
          = digitVal (Nat.digitChar (n % 10)) from by simp [decodeDigits]]
      rw [digitVal_digitChar (n % 10) (by omega)]
      omega
    · rw [if_neg h0, toDigitsCore_append, decodeDigits_append_singleton,
        ih (n / 10) (by omega), digitVal_digitChar (n % 10) (by omega)]
      omega

theorem natRepr_injective {m n : Nat} (h : Nat.repr m = Nat.repr n) : m = n := by
  have h2 : Nat.toDigits 10 m = Nat.toDigits 10 n := by
    have h3 := congrArg String.data h
    simpa [Nat.repr, List.asString] using h3
  have hm := decodeDigits_toDigitsCore (m + 1) m (Nat.lt_succ_self m)
  have hn := decodeDigits_toDigitsCore (n + 1) n (Nat.lt_succ_self n)
  unfold Nat.toDigits at h2
  rw [← hm, ← hn, h2]

theorem replaceFirst_length (db : List AppRecord) (pkg : String) (x : AppRecord) :
    (replaceFirst db pkg x).length = db.length := by
  induction db with
  | nil => rfl
  | cons y ys ih =>
    rw [replaceFirst]
    by_cases hy : y.packageName == pkg
    · rw [if_pos hy]; rfl
    · rw [if_neg hy, List.length_cons, List.length_cons, ih]

theorem countPkg_append (db l : List AppRecord) (pkg : String) :
    countPkg (db ++ l) pkg = countPkg db pkg + countPkg l pkg := by
  unfold countPkg
  rw [List.filter_append, List.length_append]

theorem countPkg_singleton_of_pkg {x : AppRecord} {pkg : String} (h : x.packageName = pkg) :
    countPkg [x] pkg = 1 := by
  unfold countPkg
  simp [List.filter, h]

/-! Claim theorems. -/

/-- C1: when the supplied signature differs from the HMAC recomputed over
`orderId ++ "|" ++ paymentId` with the gateway secret, the verify handler
returns the 400 signature-mismatch response, leaves the record collection
untouched, sends no email and writes no stub AAB file: the whole handler
run is exactly the mismatch response with an empty effect trace. -/
theorem verify_mismatch_no_side_effects (env : Env) (db : List AppRecord) (d : VerifyData)
    (h : env.hmacSha256Hex env.secret (d.razorpay_order_id ++ "|" ++ d.razorpay_payment_id)
      ≠ d.razorpay_signature) :
    verifyHandler env db d = { resp := mismatchResp, db := db, effects := [] } := by
  unfold verifyHandler
  simp [h]

/-- C1 witness: a concrete tampered-signature run. -/
theorem verify_mismatch_no_side_effects_witness :
    envA.hmacSha256Hex envA.secret
        (vdBad.razorpay_order_id ++ "|" ++ vdBad.razorpay_payment_id) ≠ vdBad.razorpay_signature ∧
    verifyHandler envA [recStored] vdBad =
      { resp := mismatchResp, db := [recStored], effects := [] } :=
  ⟨by decide, verify_mismatch_no_side_effects envA [recStored] vdBad (by decide)⟩

/-- C7: the verify handler rejects with the signature-mismatch response
exactly when the supplied signature differs from the HMAC (the black-box
`crypto.createHmac("sha256", secret)` hex digest) of the message
`orderId ++ "|" ++ paymentId` under the gateway secret; equality of the
two strings is what lets the handler proceed. -/
theorem verify_signature_rule (env : Env) (db : List AppRecord) (d : VerifyData) :
    (verifyHandler env db d).resp = mismatchResp ↔
      d.razorpay_signature ≠
        env.hmacSha256Hex env.secret (d.razorpay_order_id ++ "|" ++ d.razorpay_payment_id) := by
  unfold verifyHandler
  by_cases h : env.hmacSha256Hex env.secret (d.razorpay_order_id ++ "|" ++ d.razorpay_payment_id)
      = d.razorpay_signature
  · refine iff_of_false ?_ (by simp [h])
    simp only [h, ne_eq, not_true_eq_false, if_false, ite_false]
    cases hf : findByPackage db d.packageName with
    | none => simp [mismatchResp]
    | some ex =>
      cases hE : env.emailOk <;> simp [hE, mismatchResp]
  · refine iff_of_true ?_ (Ne.symm h)
    simp [h]

/-- C10: the stub-artifact path is the raw `path.join` of the builds
folder with `packageName ++ "." ++ type` — the submit handler always
records a write to exactly that joined path with no sanitization of the
package name — and a package name containing `../` segments escapes the
builds folder: `"../../evil"` yields the normalized path `"evil.apk"`,
which does not lie under `uploads/builds/`. -/
theorem buildFakeFile_path_unsanitized :
    (∀ (env : Env) (db : List AppRecord) (data : SubmitData) (iconU splashU : Option String),
        Effect.fileWrite (pathJoin buildsFolder (data.packageName ++ "." ++ "apk"))
            (buildFakeFileContent env data.packageName "apk")
          ∈ (submitHandler env db data iconU splashU).effects) ∧
    buildFakeFilePath "../../evil" "apk" = "evil.apk" ∧
    underDir buildsFolder (buildFakeFilePath "../../evil" "apk") = false := by
  refine ⟨?_, by decide, by decide⟩
  intro env db data iconU splashU
  unfold submitHandler
  cases hf : findByPackage db data.packageName <;>
    simp [buildFakeFilePath]

/-- C3 counterexample: a submit whose metadata has empty `packageName`
and empty `contactEmail` is not rejected — the handler answers 200,
creates a record, and writes the stub file `uploads/builds/.apk`.  This
refutes the claim that such a call fails with a validation error before
any record-store or file-store write. -/
theorem submit_skips_validation_counterexample :
    (submitHandler envA [] dataNoRequired none none).resp.status = 200 ∧
    (submitHandler envA [] dataNoRequired none none).db =
      [newAppRecord envA dataNoRequired "" ""] ∧
    Effect.fileWrite (buildFakeFilePath "" "apk") (buildFakeFileContent envA "" "apk")
      ∈ (submitHandler envA [] dataNoRequired none none).effects := by
  refine ⟨rfl, rfl, ?_⟩
  decide

/-- C3 amended: the submit handler performs no validation at all — for
every metadata object, including one whose `packageName` and
`contactEmail` are empty, the stub-APK file write happens and a record
for `data.packageName` is stored (created or updated). -/
theorem submit_always_writes (env : Env) (db : List AppRecord) (data : SubmitData)
    (iconU splashU : Option String) :
    Effect.fileWrite (buildFakeFilePath data.packageName "apk")
        (buildFakeFileContent env data.packageName "apk")
      ∈ (submitHandler env db data iconU splashU).effects ∧
    ∃ r ∈ (submitHandler env db data iconU splashU).db, r.packageName = data.packageName := by
  constructor
  · unfold submitHandler
    cases hf : findByPackage db data.packageName <;> simp
  · rw [submitHandler_db]
    cases hf : findByPackage db data.packageName with
    | none =>
      exact ⟨newAppRecord env data (iconU.getD "") (splashU.getD ""),
        List.mem_append_right _ (List.mem_singleton_self _), rfl⟩
    | some ex =>
      refine ⟨updatedAppRecord env ex data (iconU.getD "") (splashU.getD ""),
        mem_replaceFirst_self _ hf, ?_⟩
      show ex.packageName = data.packageName
      exact findByPackage_some_pkg hf

/-- C4 counterexample: a verify call with a correct signature for a
package with no stored record answers the generic 500 error — not a 4xx
not-found response — though indeed no record is silently created. -/
theorem verify_unknown_package_counterexample :
    (verifyHandler envA [] vdGood).resp =
      { status := 500, body := RespBody.errBody "Verification failed" } ∧
    (verifyHandler envA [] vdGood).db = [] := by
  constructor <;> rfl

/-- C4 amended: with a correct signature but no record for the package,
`findOneAndUpdate` returns null, dereferencing it throws into the catch,
and the handler answers the generic 500 — a 5xx, not a 4xx not-found
response.  No record is created, but the stub AAB file has already been
written when the failure occurs. -/
theorem verify_unknown_package_500 (env : Env) (db : List AppRecord) (d : VerifyData)
    (hsig : env.hmacSha256Hex env.secret (d.razorpay_order_id ++ "|" ++ d.razorpay_payment_id)
      = d.razorpay_signature)
    (hmiss : findByPackage db d.packageName = none) :
    (verifyHandler env db d).resp =
      { status := 500, body := RespBody.errBody "Verification failed" } ∧
    (verifyHandler env db d).db = db ∧
    (verifyHandler env db d).effects =
      [Effect.fileWrite (buildFakeFilePath d.packageName "aab")
        (buildFakeFileContent env d.packageName "aab")] := by
  unfold verifyHandler
  simp [hsig, hmiss]

/-- C4 witness: the amended behavior on a concrete empty store. -/
theorem verify_unknown_package_500_witness :
    (envA.hmacSha256Hex envA.secret
        (vdGood.razorpay_order_id ++ "|" ++ vdGood.razorpay_payment_id) = vdGood.razorpay_signature ∧
      findByPackage [] vdGood.packageName = none) ∧
    ((verifyHandler envA [] vdGood).resp =
        { status := 500, body := RespBody.errBody "Verification failed" } ∧
      (verifyHandler envA [] vdGood).db = [] ∧
      (verifyHandler envA [] vdGood).effects =
        [Effect.fileWrite (buildFakeFilePath vdGood.packageName "aab")
          (buildFakeFileContent envA vdGood.packageName "aab")]) :=
  ⟨⟨by decide, rfl⟩, verify_unknown_package_500 envA [] vdGood (by decide) rfl⟩

/-- C5 counterexample: in `server.js`, when the mail transport fails after
the record and stub APK were persisted, the submit request does not
return the success response — it answers the 500 error, although the
record write already happened. -/
theorem submit_email_failure_counterexample :
    (submitHandler { envA with emailOk := false } [] dataAcme none none).resp =
      { status := 500, body := RespBody.errBody "Failed to save app" } ∧
    ((submitHandler { envA with emailOk := false } [] dataAcme none none).db.map
        (fun r => r.packageName)) = ["com.acme.app"] := by
  constructor <;> rfl

/-- C5 amended: in `server.js` the awaited `sendEmail` has no internal
catch, so a notification failure makes the whole submit request fail with
the generic 500 — while the record-store state is exactly what a
successful run would have stored (the writes are not rolled back).  In
the `part_000` variant, whose `sendEmail` catches internally, the request
still answers 200 on mail failure. -/
theorem submit_email_failure_behavior (env : Env) (db : List AppRecord)
    (data : SubmitData) (iconU splashU : Option String) (hE : env.emailOk = false) :
    (submitHandler env db data iconU splashU).resp =
      { status := 500, body := RespBody.errBody "Failed to save app" } ∧
    (submitHandler env db data iconU splashU).db =
      (submitHandler { env with emailOk := true } db data iconU splashU).db ∧
    (submitHandler0 env db data iconU splashU).resp.status = 200 := by
  refine ⟨?_, ?_, rfl⟩
  · unfold submitHandler
    cases hf : findByPackage db data.packageName <;> simp [hE]
  · rw [submitHandler_db, submitHandler_db]
    cases hf : findByPackage db data.packageName <;> rfl

/-- C2 counterexample: two submits for `com.acme.app`; the second call
leaves `appName` empty yet the stored record's `appName` becomes empty
instead of keeping `"Acme"`, and the second call's non-empty
`contactEmail` (`"other@x.com"`) does not override the stored
`"a@x.com"`.  Both directions of the claimed merge rule fail. -/
theorem submit_twice_counterexample :
    ((submitHandler envA [] dataAcme none none).db.map (fun r => r.appName)) = ["Acme"] ∧
    dataEmptySecond.appName = "" ∧
    ((submitHandler { envA with now := 9 } (submitHandler envA [] dataAcme none none).db
        dataEmptySecond none none).db.map (fun r => r.appName)) = [""] ∧
    dataEmptySecond.contactEmail = "other@x.com" ∧
    ((submitHandler { envA with now := 9 } (submitHandler envA [] dataAcme none none).db
        dataEmptySecond none none).db.map (fun r => r.contactEmail)) = ["a@x.com"] := by
  refine ⟨rfl, rfl, rfl, rfl, rfl⟩

/-- C2 amended: two submits with the same `packageName` (starting from a
store with no record for it) leave exactly one record for that package.
In that record, `icon`/`splash` (when the second call uploads none),
`addons` (when the second call omits them), and the never-reassigned
`contactEmail`, `paid`, `buildAAB` and `createdAt` keep the first call's
values — but `appName`, `website`, `versionName`, `versionCode`,
`admobAppId`, `bannerAd` and `rewardedAd` take the second call's values
unconditionally, even when empty. -/
theorem submit_twice_one_record_merge (env1 env2 : Env) (db : List AppRecord)
    (data1 data2 : SubmitData) (icon1 splash1 : Option String) (pkg : String)
    (h0 : countPkg db pkg = 0)
    (h1 : data1.packageName = pkg)
    (h2 : data2.packageName = pkg)
    (hA : data2.addons = none) :
    countPkg (submitHandler env2 (submitHandler env1 db data1 icon1 splash1).db
      data2 none none).db pkg = 1 ∧
    findByPackage (submitHandler env2 (submitHandler env1 db data1 icon1 splash1).db
        data2 none none).db pkg =
      some
        { appName := data2.appName
          packageName := pkg
          website := data2.website
          icon := icon1.getD ""
          splash := splash1.getD ""
          buildFile := buildFakeFilePath pkg "apk"
          buildAAB := ""
          contactEmail := data1.contactEmail
          versionName := data2.versionName
          versionCode := data2.versionCode
          addons := data1.addons.getD []
          admobAppId := data2.admobAppId
          bannerAd := data2.bannerAd
          rewardedAd := data2.rewardedAd
          paid := false
          createdAt := env1.now
          updatedAt := some env2.now } := by
  subst h1
  have hn : findByPackage db data1.packageName = none := findByPackage_eq_none_of_count0 h0
  have hdb1 : (submitHandler env1 db data1 icon1 splash1).db =
      db ++ [newAppRecord env1 data1 (icon1.getD "") (splash1.getD "")] := by
    rw [submitHandler_db, hn]
  have hpkg1 : (newAppRecord env1 data1 (icon1.getD "") (splash1.getD "")).packageName
      = data1.packageName := rfl
  have hf1 : findByPackage (db ++ [newAppRecord env1 data1 (icon1.getD "") (splash1.getD "")])
      data1.packageName = some (newAppRecord env1 data1 (icon1.getD "") (splash1.getD "")) := by
    rw [findByPackage_append hn, findByPackage_cons, if_pos (by simp [hpkg1])]
  have hf1' : findByPackage (db ++ [newAppRecord env1 data1 (icon1.getD "") (splash1.getD "")])
      data2.packageName = some (newAppRecord env1 data1 (icon1.getD "") (splash1.getD "")) := by
    rw [h2]; exact hf1
  have hdb2 : (submitHandler env2 (submitHandler env1 db data1 icon1 splash1).db
      data2 none none).db =
      db ++ [updatedAppRecord env2 (newAppRecord env1 data1 (icon1.getD "") (splash1.getD ""))
        data2 "" ""] := by
    rw [hdb1, submitHandler_db]
    simp only [hf1']
    rw [show (none : Option String).getD "" = "" from rfl]
    rw [h2, replaceFirst_append_of_none _ _ hn]
    simp only [replaceFirst]
    rw [if_pos (by simp [hpkg1])]
  rw [hdb2]
  have hupd : updatedAppRecord env2 (newAppRecord env1 data1 (icon1.getD "") (splash1.getD ""))
      data2 "" "" =
      { appName := data2.appName
        packageName := data1.packageName
        website := data2.website
        icon := icon1.getD ""
        splash := splash1.getD ""
        buildFile := buildFakeFilePath data1.packageName "apk"
        buildAAB := ""
        contactEmail := data1.contactEmail
        versionName := data2.versionName
        versionCode := data2.versionCode
        addons := data1.addons.getD []
        admobAppId := data2.admobAppId
        bannerAd := data2.bannerAd
        rewardedAd := data2.rewardedAd
        paid := false
        createdAt := env1.now
        updatedAt := some env2.now } := by
    unfold updatedAppRecord newAppRecord
    simp [hA, h2]
  constructor
  · rw [countPkg_append, h0, countPkg_singleton_of_pkg (by rw [hupd])]
  · rw [findByPackage_append hn, findByPackage_cons, if_pos (by rw [hupd]; simp), hupd]

/-- C2 witness: the amended merge rule exercised on a concrete store. -/
theorem submit_twice_one_record_merge_witness :
    (countPkg ([] : List AppRecord) "com.acme.app" = 0 ∧
      dataAcme.packageName = "com.acme.app" ∧
      dataEmptySecond.packageName = "com.acme.app" ∧
      dataEmptySecond.addons = none) ∧
    (countPkg (submitHandler { envA with now := 9 }
        (submitHandler envA [] dataAcme (some "uploads/icons/1-i.png") none).db
        dataEmptySecond none none).db "com.acme.app" = 1 ∧
      findByPackage (submitHandler { envA with now := 9 }
          (submitHandler envA [] dataAcme (some "uploads/icons/1-i.png") none).db
          dataEmptySecond none none).db "com.acme.app" =
        some
          { appName := dataEmptySecond.appName
            packageName := "com.acme.app"
            website := dataEmptySecond.website
            icon := (some "uploads/icons/1-i.png").getD ""
            splash := (none : Option String).getD ""
            buildFile := buildFakeFilePath "com.acme.app" "apk"
            buildAAB := ""
            contactEmail := dataAcme.contactEmail
            versionName := dataEmptySecond.versionName
            versionCode := dataEmptySecond.versionCode
            addons := dataAcme.addons.getD []
            admobAppId := dataEmptySecond.admobAppId
            bannerAd := dataEmptySecond.bannerAd
            rewardedAd := dataEmptySecond.rewardedAd
            paid := false
            createdAt := envA.now
            updatedAt := some ({ envA with now := 9 } : Env).now }) :=
  ⟨⟨rfl, rfl, rfl, rfl⟩,
    submit_twice_one_record_merge envA { envA with now := 9 } [] dataAcme dataEmptySecond
      (some "uploads/icons/1-i.png") none "com.acme.app" rfl rfl rfl rfl⟩

/-- C6: a submit call never changes `paid` or `buildAAB` of any record
already in the store (whichever branch it takes), and across every
operation the server mounts — health, checkApp, submit, search, order,
verify — no record is ever removed (the store can only grow or be
updated in place, so every pre-existing position is still populated) and
a record whose `paid` is `true` still has `paid = true` after the
operation: payment state never regresses. -/
theorem payment_state_never_regresses :
    (∀ (env : Env) (db : List AppRecord) (data : SubmitData) (iconU splashU : Option String)
        (i : Nat) (r r' : AppRecord),
        db.get? i = some r →
        (submitHandler env db data iconU splashU).db.get? i = some r' →
        r'.paid = r.paid ∧ r'.buildAAB = r.buildAAB) ∧
    (∀ (env : Env) (db : List AppRecord) (req : Request),
        db.length ≤ (step env db req).length) ∧
    (∀ (env : Env) (db : List AppRecord) (req : Request) (i : Nat) (r r' : AppRecord),
        db.get? i = some r → (step env db req).get? i = some r' →
        r.paid = true → r'.paid = true) := by
  refine ⟨?_, ?_, ?_⟩
  · intro env db data iconU splashU i r r' h h'
    have hp := submitHandler_get?_preserves env db data iconU splashU i r r' h h'
    exact ⟨hp.1, hp.2.1⟩
  · intro env db req
    cases req with
    | health => exact Nat.le_refl _
    | checkApp pkg => rw [step, checkAppHandler_db]
    | submit data iU sU =>
      rw [step, submitHandler_db]
      cases hf : findByPackage db data.packageName with
      | none => simp
      | some ex => rw [replaceFirst_length]
    | search q => rw [step, searchHandler_db]
    | order => rw [step, orderHandler_db]
    | verify d =>
      rw [step]
      rcases verifyHandler_db_cases env db d with hdb | ⟨ex, hf, hdb⟩
      · rw [hdb]
      · rw [hdb, replaceFirst_length]
  · intro env db req i r r' h h' hp
    cases req with
    | health =>
      rw [step] at h'
      rw [show (healthHandler env db).db = db from rfl, h] at h'
      cases Option.some.inj h'
      exact hp
    | checkApp pkg =>
      rw [step, checkAppHandler_db, h] at h'
      cases Option.some.inj h'
      exact hp
    | submit data iU sU =>
      have hq := submitHandler_get?_preserves env db data iU sU i r r' h (by rwa [step] at h')
      rw [hq.1, hp]
    | search q =>
      rw [step, searchHandler_db, h] at h'
      cases Option.some.inj h'
      exact hp
    | order =>
      rw [step, orderHandler_db, h] at h'
      cases Option.some.inj h'
      exact hp
    | verify d =>
      rcases (verifyHandler_get?_preserves env db d i r r' h (by rwa [step] at h')).1 with hh | hh
      · rw [hh, hp]
      · exact hh

/-- C6 witness: a paid record survives a metadata resubmission with
`paid` and `buildAAB` intact. -/
theorem payment_state_never_regresses_witness :
    ([recPaid].get? 0 = some recPaid ∧
      (step envA [recPaid] (Request.submit dataEmptySecond none none)).get? 0 =
        some (updatedAppRecord envA recPaid dataEmptySecond "" "") ∧
      recPaid.paid = true) ∧
    (updatedAppRecord envA recPaid dataEmptySecond "" "").paid = true :=
  ⟨⟨rfl, rfl, rfl⟩,
    payment_state_never_regresses.2.2 envA [recPaid] (Request.submit dataEmptySecond none none)
      0 recPaid (updatedAppRecord envA recPaid dataEmptySecond "" "") rfl rfl rfl⟩

/-- C9 counterexample: the verify mutation is a mutating write — it flips
`paid` from `false` to `true` — yet it leaves `updatedAt` at its old
value `some 5` instead of setting it to the clock (`99`).  This refutes
the claim that `updatedAt` is set on every mutating write including the
payment-verify mutation. -/
theorem verify_skips_updatedAt_counterexample :
    recStored.paid = false ∧ recStored.updatedAt = some 5 ∧
    ({ envA with now := 99 } : Env).now = 99 ∧
    ((verifyHandler { envA with now := 99 } [recStored] vdGood).db.map
      (fun r => (r.paid, r.updatedAt))) = [(true, some 5)] :=
  ⟨rfl, rfl, rfl, rfl⟩

/-- C9 amended: `createdAt` is set to the clock at creation, never
changed afterwards by any operation; `updatedAt` is unset at creation and
set to the clock by the submit update branch — but the payment-verify
mutation sets only `paid` and `buildAAB` and leaves `updatedAt` exactly
as it was. -/
theorem timestamps_rule :
    (∀ (env : Env) (data : SubmitData) (icon splash : String),
        (newAppRecord env data icon splash).createdAt = env.now ∧
        (newAppRecord env data icon splash).updatedAt = none) ∧
    (∀ (env : Env) (db : List AppRecord) (req : Request) (i : Nat) (r r' : AppRecord),
        db.get? i = some r → (step env db req).get? i = some r' →
        r'.createdAt = r.createdAt) ∧
    (∀ (env : Env) (db : List AppRecord) (data : SubmitData) (iconU splashU : Option String)
        (ex : AppRecord), findByPackage db data.packageName = some ex →
        findByPackage (submitHandler env db data iconU splashU).db data.packageName =
          some (updatedAppRecord env ex data (iconU.getD "") (splashU.getD "")) ∧
        (updatedAppRecord env ex data (iconU.getD "") (splashU.getD "")).updatedAt
          = some env.now) ∧
    (∀ (env : Env) (db : List AppRecord) (d : VerifyData) (ex : AppRecord),
        env.hmacSha256Hex env.secret (d.razorpay_order_id ++ "|" ++ d.razorpay_payment_id)
          = d.razorpay_signature →
        findByPackage db d.packageName = some ex →
        findByPackage (verifyHandler env db d).db d.packageName =
          some { ex with paid := true, buildAAB := buildFakeFilePath d.packageName "aab" } ∧
        ({ ex with paid := true
                   buildAAB := buildFakeFilePath d.packageName "aab" } : AppRecord).updatedAt
          = ex.updatedAt) := by
  refine ⟨fun env data icon splash => ⟨rfl, rfl⟩, ?_, ?_, ?_⟩
  · intro env db req i r r' h h'
    cases req with
    | health =>
      rw [step] at h'
      rw [show (healthHandler env db).db = db from rfl, h] at h'
      cases Option.some.inj h'
      rfl
    | checkApp pkg =>
      rw [step, checkAppHandler_db, h] at h'
      cases Option.some.inj h'
      rfl
    | submit data iU sU =>
      exact (submitHandler_get?_preserves env db data iU sU i r r' h
        (by rwa [step] at h')).2.2.1
    | search q =>
      rw [step, searchHandler_db, h] at h'
      cases Option.some.inj h'
      rfl
    | order =>
      rw [step, orderHandler_db, h] at h'
      cases Option.some.inj h'
      rfl
    | verify d =>
      exact (verifyHandler_get?_preserves env db d i r r' h (by rwa [step] at h')).2.1
  · intro env db data iconU splashU ex hf
    refine ⟨?_, rfl⟩
    rw [submitHandler_db]
    simp only [hf]
    have hx0 : ex.packageName = data.packageName := findByPackage_some_pkg hf
    exact findByPackage_replaceFirst_self
      (updatedAppRecord env ex data (iconU.getD "") (splashU.getD "")) hx0 hf
  · intro env db d ex hsig hf
    refine ⟨?_, rfl⟩
    have hdb : (verifyHandler env db d).db =
        replaceFirst db d.packageName
          { ex with paid := true, buildAAB := buildFakeFilePath d.packageName "aab" } := by
      unfold verifyHandler
      simp only [hsig, ne_eq, not_true_eq_false, if_false, hf]
    rw [hdb]
    have hx0 : ex.packageName = d.packageName := findByPackage_some_pkg hf
    exact findByPackage_replaceFirst_self
      { ex with paid := true, buildAAB := buildFakeFilePath d.packageName "aab" } hx0 hf

/-- C9 witness: the amended timestamp behavior at a concrete verify. -/
theorem timestamps_rule_witness :
    (envA.hmacSha256Hex envA.secret
        (vdGood.razorpay_order_id ++ "|" ++ vdGood.razorpay_payment_id) = vdGood.razorpay_signature ∧
      findByPackage [recStored] vdGood.packageName = some recStored) ∧
    (findByPackage (verifyHandler envA [recStored] vdGood).db vdGood.packageName =
        some { recStored with paid := true
                              buildAAB := buildFakeFilePath vdGood.packageName "aab" } ∧
      ({ recStored with paid := true
                        buildAAB := buildFakeFilePath vdGood.packageName "aab" } : AppRecord).updatedAt
        = recStored.updatedAt) :=
  ⟨⟨by decide, rfl⟩,
    timestamps_rule.2.2.2 envA [recStored] vdGood recStored (by decide) rfl⟩

/-- C5 witness: a concrete failing-mail submit. -/
theorem submit_email_failure_behavior_witness :
    ({ envA with emailOk := false } : Env).emailOk = false ∧
    ((submitHandler { envA with emailOk := false } [] dataAcme none none).resp =
        { status := 500, body := RespBody.errBody "Failed to save app" } ∧
      (submitHandler { envA with emailOk := false } [] dataAcme none none).db =
        (submitHandler { { envA with emailOk := false } with emailOk := true } [] dataAcme none none).db ∧
      (submitHandler0 { envA with emailOk := false } [] dataAcme none none).resp.status = 200) :=
  ⟨rfl, submit_email_failure_behavior { envA with emailOk := false } [] dataAcme none none rfl⟩

/-- C8: the order handler asks the gateway for exactly
`amount = 699900`, `currency = "INR"` and the receipt
`"order_" ++ Date.now()`; two calls at different clock instants yield
distinct receipts (decimal rendering of the clock is injective); and on
gateway failure the handler answers the 500 error and leaves the store
untouched with no effects. -/
theorem createOrder_contract :
    (∀ env : Env, createOrderReq env =
        { amount := 699900, currency := "INR", receipt := "order_" ++ Nat.repr env.now }) ∧
    (∀ env1 env2 : Env, env1.now ≠ env2.now →
        (createOrderReq env1).receipt ≠ (createOrderReq env2).receipt) ∧
    (∀ (env : Env) (db : List AppRecord), env.gatewayOk = false →
        orderHandler env db =
          { resp := { status := 500, body := RespBody.errBody "Payment order failed" },
            db := db, effects := [] }) := by
  refine ⟨fun env => rfl, ?_, ?_⟩
  · intro env1 env2 hne heq
    apply hne
    apply natRepr_injective
    have h3 := congrArg String.data heq
    simp only [createOrderReq, String.data_append] at h3
    exact String.ext (List.append_cancel_left h3)
  · intro env db h
    unfold orderHandler
    simp [h]

/-- C8 witness: distinct clocks give distinct receipts; a failing gateway
gives the 500 with no state change. -/
theorem createOrder_contract_witness :
    (envA.now ≠ ({ envA with now := 8 } : Env).now ∧
      ({ envA with gatewayOk := false } : Env).gatewayOk = false) ∧
    ((createOrderReq envA).receipt ≠ (createOrderReq { envA with now := 8 }).receipt ∧
      orderHandler { envA with gatewayOk := false } [recStored] =
        { resp := { status := 500, body := RespBody.errBody "Payment order failed" },
          db := [recStored], effects := [] }) :=
  ⟨⟨by decide, rfl⟩,
    createOrder_contract.2.1 envA { envA with now := 8 } (by decide),
    createOrder_contract.2.2 { envA with gatewayOk := false } [recStored] rfl⟩

end Fleepzon
